import Mathlib

/-!
Shallow embedding of the NIR constant-folding evaluator
(`nir_constant_expressions.c`).

Conventions of the embedding:

* A destination or source lane of the generic constant union
  (`nir_const_value`) is modelled as a raw natural number (its bit
  pattern); reads of a typed union member decode the low bits of that
  pattern (`loadU`, `loadI`, `loadB`) and writes encode with the C
  truncation behaviour (`storeN`, `storeBit1`, `storeB`).
* C arithmetic is modelled with the usual-arithmetic-conversion rules
  made explicit: operands of rank below `int` (`uint8_t`, `int8_t`,
  `uint16_t`, `int16_t`, and the `uint1_t`/`int1_t` typedefs for
  `uint8_t`/`int8_t`) are promoted to `int`, where the arithmetic is
  exact; `uint32_t`/`uint64_t` arithmetic wraps modulo `2^32`/`2^64`;
  `int32_t`/`int64_t` overflow (undefined behaviour in C) is modelled
  as two's-complement wraparound, which is what the compiled code does.
* Each evaluator returns `none` exactly when the C function would fall
  into its `default: unreachable("unknown bit width")` branch, and
  otherwise `some` of the ordered list of `(destination lane index,
  raw value)` stores it performs.
* Floating-point comparison and conversion operands are not modelled
  bit-for-bit; where an evaluator only routes the result of a host
  float operation into an integer store path, that float operation is
  taken as an explicit function parameter.
-/

/-- MAX_UINT_FOR_SIZE from the source: `UINT64_MAX >> (64 - bits)`. -/
def MAX_UINT_FOR_SIZE (bits : Nat) : Nat := (2 ^ 64 - 1) >>> (64 - bits)

/-- Two's-complement reading of a `w`-bit pattern `n < 2^w`. -/
def toSigned (w : Nat) (n : Nat) : Int :=
  if n < 2 ^ (w - 1) then (n : Int) else (n : Int) - 2 ^ w

/-- Read of an unsigned union member (`.u8`/`.u16`/`.u32`/`.u64`): the low
`w` bits of the raw lane. -/
def loadU (w : Nat) (v : Nat) : Nat := v % 2 ^ w

/-- Read of a signed union member (`.i8`/`.i16`/`.i32`/`.i64`): the low `w`
bits of the raw lane, two's-complement. -/
def loadI (w : Nat) (v : Nat) : Int := toSigned w (v % 2 ^ w)

/-- Read of the `.b` (C `_Bool`) union member. -/
def loadB (v : Nat) : Bool := v != 0

/-- Source idiom `-(int1_t)_src[j][_i].b`: 1-bit integers use a 0 / -1
convention. -/
def int1_of_bit (v : Nat) : Int := if loadB v then -1 else 0

/-- Source idiom `const uint1_t src = _src[j][_i].b`: the bool read as an
unsigned value 0/1. -/
def uint1_of_bit (v : Nat) : Nat := if loadB v then 1 else 0

/-- Store into a `w`-bit integer union member: C integer conversion
truncates to the low `w` bits of the two's-complement pattern. -/
def storeN (w : Nat) (x : Int) : Nat := (x % ((2 : Int) ^ w)).toNat

/-- Store path `_dst_val[_i].b = dst & 1` used by every 1-bit-destination
integer branch ("1-bit integers get truncated"). -/
def storeBit1 (x : Int) : Nat := (x % 2).toNat

/-- Store of an `int` expression into the `.b` member: the C `_Bool`
conversion maps zero to 0 and anything else to 1. -/
def storeB (x : Int) : Nat := if x = 0 then 0 else 1

/-- Store path `_dst_val[_i].i32 = -(int)dst` of the `bool32_t` comparison
results. -/
def bool32_store (dst : Bool) : Nat := storeN 32 (if dst then -1 else 0)

/-- Store path `_dst_val[_i].b = -(int)dst` of the `bool1_t` comparison
results. -/
def bool1_store (dst : Bool) : Nat := storeB (if dst then -1 else 0)

/-- Per-lane loop `for (_i = 0; _i < num_components; _i++)` of a
one-source evaluator: lane `i` of the destination is written with `f`
applied to lane `i` of the source. -/
def lanewise1 (num_components : Nat) (src : List (List Nat)) (f : Nat → Nat) :
    List (Nat × Nat) :=
  (List.range num_components).map fun i => (i, f ((src.getD 0 []).getD i 0))

/-- Per-lane loop of a two-source evaluator. -/
def lanewise2 (num_components : Nat) (src : List (List Nat)) (f : Nat → Nat → Nat) :
    List (Nat × Nat) :=
  (List.range num_components).map fun i =>
    (i, f ((src.getD 0 []).getD i 0) ((src.getD 1 []).getD i 0))

/-- Per-lane loop of a three-source evaluator. -/
def lanewise3 (num_components : Nat) (src : List (List Nat))
    (f : Nat → Nat → Nat → Nat) : List (Nat × Nat) :=
  (List.range num_components).map fun i =>
    (i, f ((src.getD 0 []).getD i 0) ((src.getD 1 []).getD i 0)
          ((src.getD 2 []).getD i 0))

/-! ## evaluate_iadd -/

/-- Lane body of `evaluate_iadd`, `case 1`: `int1_t dst = src0 + src1`
on 0 / -1 operands, stored as `dst & 1`. -/
def iadd_lane1 (v0 v1 : Nat) : Nat :=
  storeBit1 (int1_of_bit v0 + int1_of_bit v1)

/-- Lane body of `evaluate_iadd` for `w` of 8/16/32/64:
`intN_t dst = src0 + src1`, stored into `.iN`.  For 8/16 bits the
operands promote to `int` (exact sum) and the store truncates; for
32/64 bits overflow wraps — both are `storeN w` of the exact sum. -/
def iadd_lane (w : Nat) (v0 v1 : Nat) : Nat :=
  storeN w (loadI w v0 + loadI w v1)

/-- Translation of `evaluate_iadd`: switch over `bit_size` with a fatal
`unreachable("unknown bit width")` default (modelled as `none`). -/
def evaluate_iadd (num_components bit_size : Nat) (src : List (List Nat)) :
    Option (List (Nat × Nat)) :=
  if bit_size = 1 then some (lanewise2 num_components src iadd_lane1)
  else if bit_size = 8 then some (lanewise2 num_components src (iadd_lane 8))
  else if bit_size = 16 then some (lanewise2 num_components src (iadd_lane 16))
  else if bit_size = 32 then some (lanewise2 num_components src (iadd_lane 32))
  else if bit_size = 64 then some (lanewise2 num_components src (iadd_lane 64))
  else none

/-! ## evaluate_uadd_sat

Branch bodies:
`uintN_t dst = (src0 + src1) < src0 ? MAX_UINT_FOR_SIZE(sizeof(src0) * 8)
                                    : (src0 + src1);`
Note `sizeof(src0) * 8` is 8 for the `uint1_t` (= `uint8_t`) case. -/

/-- Lane body of `evaluate_uadd_sat`, `case 1`: `uint1_t` operands read
from `.b`, promoted to `int` so the sum is exact and the wraparound test
cannot fire; `uint8_t` store, then `.b = dst & 1`. -/
def uadd_sat_lane1 (v0 v1 : Nat) : Nat :=
  let src0 := uint1_of_bit v0
  let src1 := uint1_of_bit v1
  let dst := if src0 + src1 < src0 then MAX_UINT_FOR_SIZE 8 else src0 + src1
  (dst % 2 ^ 8) &&& 1

/-- Lane body of `evaluate_uadd_sat`, `case 8`: the `uint8_t` operands
promote to `int`, so `(src0 + src1) < src0` is evaluated on the exact
sum and cannot fire; the `uint8_t` store truncates modulo `2^8`. -/
def uadd_sat_lane8 (v0 v1 : Nat) : Nat :=
  let src0 := loadU 8 v0
  let src1 := loadU 8 v1
  let dst := if src0 + src1 < src0 then MAX_UINT_FOR_SIZE 8 else src0 + src1
  dst % 2 ^ 8

/-- Lane body of `evaluate_uadd_sat`, `case 16`: same promotion to `int`
as the 8-bit case, store truncates modulo `2^16`. -/
def uadd_sat_lane16 (v0 v1 : Nat) : Nat :=
  let src0 := loadU 16 v0
  let src1 := loadU 16 v1
  let dst := if src0 + src1 < src0 then MAX_UINT_FOR_SIZE 16 else src0 + src1
  dst % 2 ^ 16

/-- Lane body of `evaluate_uadd_sat`, `case 32`: `uint32_t` addition
wraps modulo `2^32` before the comparison. -/
def uadd_sat_lane32 (v0 v1 : Nat) : Nat :=
  let src0 := loadU 32 v0
  let src1 := loadU 32 v1
  let sum := (src0 + src1) % 2 ^ 32
  let dst := if sum < src0 then MAX_UINT_FOR_SIZE 32 else sum
  dst % 2 ^ 32

/-- Lane body of `evaluate_uadd_sat`, `case 64`: `uint64_t` addition
wraps modulo `2^64` before the comparison. -/
def uadd_sat_lane64 (v0 v1 : Nat) : Nat :=
  let src0 := loadU 64 v0
  let src1 := loadU 64 v1
  let sum := (src0 + src1) % 2 ^ 64
  let dst := if sum < src0 then MAX_UINT_FOR_SIZE 64 else sum
  dst % 2 ^ 64

/-- Translation of `evaluate_uadd_sat`. -/
def evaluate_uadd_sat (num_components bit_size : Nat) (src : List (List Nat)) :
    Option (List (Nat × Nat)) :=
  if bit_size = 1 then some (lanewise2 num_components src uadd_sat_lane1)
  else if bit_size = 8 then some (lanewise2 num_components src uadd_sat_lane8)
  else if bit_size = 16 then some (lanewise2 num_components src uadd_sat_lane16)
  else if bit_size = 32 then some (lanewise2 num_components src uadd_sat_lane32)
  else if bit_size = 64 then some (lanewise2 num_components src uadd_sat_lane64)
  else none

/-! ## evaluate_iadd_sat

Branch bodies:
```
intN_t dst =
  src1 > 0 ?
     (src0 + src1 < src0 ? (1ull << (bit_size - 1)) - 1 : src0 + src1) :
     (src0 < src0 + src1 ? (1ull << (bit_size - 1))     : src0 + src1);
```
The `unsigned long long` bound expressions and the `int` sum are both
converted through the final `intN_t` store, i.e. truncated to `w` bits
(`storeN w`). -/

/-- Lane body of `evaluate_iadd_sat`, `case 1`: 0 / -1 operands; with
`bit_size = 1` the bounds are `(1ull << 0) - 1 = 0` and `1ull << 0 = 1`;
`src1 > 0` is never true and the negative-overflow test compares exact
`int` sums, so the result is always the wrapped sum; stored as
`dst & 1`. -/
def iadd_sat_lane1 (v0 v1 : Nat) : Nat :=
  let src0 := int1_of_bit v0
  let src1 := int1_of_bit v1
  let dst : Int :=
    if src1 > 0 then
      (if src0 + src1 < src0 then 2 ^ (1 - 1) - 1 else src0 + src1)
    else
      (if src0 < src0 + src1 then 2 ^ (1 - 1) else src0 + src1)
  storeBit1 dst

/-- Lane body of `evaluate_iadd_sat`, `case 8`: the `int8_t` operands
promote to `int`, so both wraparound tests are evaluated on the exact
sum and can never fire; the `int8_t` store truncates. -/
def iadd_sat_lane8 (v0 v1 : Nat) : Nat :=
  let src0 := loadI 8 v0
  let src1 := loadI 8 v1
  let dst : Int :=
    if src1 > 0 then
      (if src0 + src1 < src0 then 2 ^ (8 - 1) - 1 else src0 + src1)
    else
      (if src0 < src0 + src1 then 2 ^ (8 - 1) else src0 + src1)
  storeN 8 dst

/-- Lane body of `evaluate_iadd_sat`, `case 16`: same promotion to `int`
as the 8-bit case. -/
def iadd_sat_lane16 (v0 v1 : Nat) : Nat :=
  let src0 := loadI 16 v0
  let src1 := loadI 16 v1
  let dst : Int :=
    if src1 > 0 then
      (if src0 + src1 < src0 then 2 ^ (16 - 1) - 1 else src0 + src1)
    else
      (if src0 < src0 + src1 then 2 ^ (16 - 1) else src0 + src1)
  storeN 16 dst

/-- Lane body of `evaluate_iadd_sat`, `case 32`: `int32_t` addition, its
overflow modelled as two's-complement wraparound (`Int.bmod _ (2^32)`),
so the wraparound tests detect overflow and substitute the bound. -/
def iadd_sat_lane32 (v0 v1 : Nat) : Nat :=
  let src0 := loadI 32 v0
  let src1 := loadI 32 v1
  let sum : Int := Int.bmod (src0 + src1) (2 ^ 32)
  let dst : Int :=
    if src1 > 0 then
      (if sum < src0 then 2 ^ (32 - 1) - 1 else sum)
    else
      (if src0 < sum then 2 ^ (32 - 1) else sum)
  storeN 32 dst

/-- Lane body of `evaluate_iadd_sat`, `case 64`: `int64_t` addition with
overflow modelled as two's-complement wraparound. -/
def iadd_sat_lane64 (v0 v1 : Nat) : Nat :=
  let src0 := loadI 64 v0
  let src1 := loadI 64 v1
  let sum : Int := Int.bmod (src0 + src1) (2 ^ 64)
  let dst : Int :=
    if src1 > 0 then
      (if sum < src0 then 2 ^ (64 - 1) - 1 else sum)
    else
      (if src0 < sum then 2 ^ (64 - 1) else sum)
  storeN 64 dst

/-- Translation of `evaluate_iadd_sat`. -/
def evaluate_iadd_sat (num_components bit_size : Nat) (src : List (List Nat)) :
    Option (List (Nat × Nat)) :=
  if bit_size = 1 then some (lanewise2 num_components src iadd_sat_lane1)
  else if bit_size = 8 then some (lanewise2 num_components src iadd_sat_lane8)
  else if bit_size = 16 then some (lanewise2 num_components src iadd_sat_lane16)
  else if bit_size = 32 then some (lanewise2 num_components src iadd_sat_lane32)
  else if bit_size = 64 then some (lanewise2 num_components src iadd_sat_lane64)
  else none

/-! ## evaluate_idiv, evaluate_udiv, evaluate_imod, evaluate_irem,
evaluate_umod

C signed `/` and `%` truncate toward zero (`Int.tdiv` / `Int.tmod`);
every division/modulo evaluator guards `src1 == 0` and substitutes 0. -/

/-- Lane body of `evaluate_idiv`, `case 1`:
`int1_t dst = src1 == 0 ? 0 : (src0 / src1)` on 0 / -1 operands,
stored as `dst & 1`. -/
def idiv_lane1 (v0 v1 : Nat) : Nat :=
  let src0 := int1_of_bit v0
  let src1 := int1_of_bit v1
  storeBit1 (if src1 = 0 then 0 else Int.tdiv src0 src1)

/-- Lane body of `evaluate_idiv` for `w` of 8/16/32/64:
`intN_t dst = src1 == 0 ? 0 : (src0 / src1)`, stored into `.iN`
(the store truncates, which wraps the single overflowing quotient
`INTN_MIN / -1`). -/
def idiv_lane (w : Nat) (v0 v1 : Nat) : Nat :=
  let src0 := loadI w v0
  let src1 := loadI w v1
  storeN w (if src1 = 0 then 0 else Int.tdiv src0 src1)

/-- Translation of `evaluate_idiv`. -/
def evaluate_idiv (num_components bit_size : Nat) (src : List (List Nat)) :
    Option (List (Nat × Nat)) :=
  if bit_size = 1 then some (lanewise2 num_components src idiv_lane1)
  else if bit_size = 8 then some (lanewise2 num_components src (idiv_lane 8))
  else if bit_size = 16 then some (lanewise2 num_components src (idiv_lane 16))
  else if bit_size = 32 then some (lanewise2 num_components src (idiv_lane 32))
  else if bit_size = 64 then some (lanewise2 num_components src (idiv_lane 64))
  else none

/-- Lane body of `evaluate_udiv`, `case 1`:
`uint1_t dst = src1 == 0 ? 0 : (src0 / src1)` on 0/1 operands read from
`.b`, stored as `dst & 1`. -/
def udiv_lane1 (v0 v1 : Nat) : Nat :=
  let src0 := uint1_of_bit v0
  let src1 := uint1_of_bit v1
  (if src1 = 0 then 0 else src0 / src1) &&& 1

/-- Lane body of `evaluate_udiv` for `w` of 8/16/32/64:
`uintN_t dst = src1 == 0 ? 0 : (src0 / src1)`, stored into `.uN`. -/
def udiv_lane (w : Nat) (v0 v1 : Nat) : Nat :=
  let src0 := loadU w v0
  let src1 := loadU w v1
  (if src1 = 0 then 0 else src0 / src1) % 2 ^ w

/-- Translation of `evaluate_udiv`. -/
def evaluate_udiv (num_components bit_size : Nat) (src : List (List Nat)) :
    Option (List (Nat × Nat)) :=
  if bit_size = 1 then some (lanewise2 num_components src udiv_lane1)
  else if bit_size = 8 then some (lanewise2 num_components src (udiv_lane 8))
  else if bit_size = 16 then some (lanewise2 num_components src (udiv_lane 16))
  else if bit_size = 32 then some (lanewise2 num_components src (udiv_lane 32))
  else if bit_size = 64 then some (lanewise2 num_components src (udiv_lane 64))
  else none

/-- Inner ternary of the `evaluate_imod` lane bodies:
`(src0 % src1 == 0 || (src0 >= 0) == (src1 >= 0)) ? src0 % src1
                                                  : src0 % src1 + src1`
— the truncated C remainder adjusted by one divisor when the operand
signs differ and the remainder is nonzero, i.e. a floored
(divisor-signed) modulus. -/
def imodC (src0 src1 : Int) : Int :=
  if Int.tmod src0 src1 = 0 ∨ ((0 ≤ src0) ↔ (0 ≤ src1)) then
    Int.tmod src0 src1
  else Int.tmod src0 src1 + src1

/-- Lane body of `evaluate_imod`, `case 1`:
`int1_t dst = src1 == 0 ? 0 : ...`, stored as `dst & 1`. -/
def imod_lane1 (v0 v1 : Nat) : Nat :=
  let src0 := int1_of_bit v0
  let src1 := int1_of_bit v1
  storeBit1 (if src1 = 0 then 0 else imodC src0 src1)

/-- Lane body of `evaluate_imod` for `w` of 8/16/32/64. -/
def imod_lane (w : Nat) (v0 v1 : Nat) : Nat :=
  let src0 := loadI w v0
  let src1 := loadI w v1
  storeN w (if src1 = 0 then 0 else imodC src0 src1)

/-- Translation of `evaluate_imod`. -/
def evaluate_imod (num_components bit_size : Nat) (src : List (List Nat)) :
    Option (List (Nat × Nat)) :=
  if bit_size = 1 then some (lanewise2 num_components src imod_lane1)
  else if bit_size = 8 then some (lanewise2 num_components src (imod_lane 8))
  else if bit_size = 16 then some (lanewise2 num_components src (imod_lane 16))
  else if bit_size = 32 then some (lanewise2 num_components src (imod_lane 32))
  else if bit_size = 64 then some (lanewise2 num_components src (imod_lane 64))
  else none

/-- Lane body of `evaluate_irem`, `case 1`:
`int1_t dst = src1 == 0 ? 0 : src0 % src1`, stored as `dst & 1`. -/
def irem_lane1 (v0 v1 : Nat) : Nat :=
  let src0 := int1_of_bit v0
  let src1 := int1_of_bit v1
  storeBit1 (if src1 = 0 then 0 else Int.tmod src0 src1)

/-- Lane body of `evaluate_irem` for `w` of 8/16/32/64:
`intN_t dst = src1 == 0 ? 0 : src0 % src1`, stored into `.iN`. -/
def irem_lane (w : Nat) (v0 v1 : Nat) : Nat :=
  let src0 := loadI w v0
  let src1 := loadI w v1
  storeN w (if src1 = 0 then 0 else Int.tmod src0 src1)

/-- Translation of `evaluate_irem`. -/
def evaluate_irem (num_components bit_size : Nat) (src : List (List Nat)) :
    Option (List (Nat × Nat)) :=
  if bit_size = 1 then some (lanewise2 num_components src irem_lane1)
  else if bit_size = 8 then some (lanewise2 num_components src (irem_lane 8))
  else if bit_size = 16 then some (lanewise2 num_components src (irem_lane 16))
  else if bit_size = 32 then some (lanewise2 num_components src (irem_lane 32))
  else if bit_size = 64 then some (lanewise2 num_components src (irem_lane 64))
  else none

/-- Lane body of `evaluate_umod`, `case 1`:
`uint1_t dst = src1 == 0 ? 0 : src0 % src1`, stored as `dst & 1`. -/
def umod_lane1 (v0 v1 : Nat) : Nat :=
  let src0 := uint1_of_bit v0
  let src1 := uint1_of_bit v1
  (if src1 = 0 then 0 else src0 % src1) &&& 1

/-- Lane body of `evaluate_umod` for `w` of 8/16/32/64:
`uintN_t dst = src1 == 0 ? 0 : src0 % src1`, stored into `.uN`. -/
def umod_lane (w : Nat) (v0 v1 : Nat) : Nat :=
  let src0 := loadU w v0
  let src1 := loadU w v1
  (if src1 = 0 then 0 else src0 % src1) % 2 ^ w

/-- Translation of `evaluate_umod`. -/
def evaluate_umod (num_components bit_size : Nat) (src : List (List Nat)) :
    Option (List (Nat × Nat)) :=
  if bit_size = 1 then some (lanewise2 num_components src umod_lane1)
  else if bit_size = 8 then some (lanewise2 num_components src (umod_lane 8))
  else if bit_size = 16 then some (lanewise2 num_components src (umod_lane 16))
  else if bit_size = 32 then some (lanewise2 num_components src (umod_lane 32))
  else if bit_size = 64 then some (lanewise2 num_components src (umod_lane 64))
  else none

/-! ## Comparison evaluators

Each comparison evaluator computes a host `bool` per lane and stores it
through `-(int)dst`:

* the `bool1_t` variants (`ieq`, `ine`, `ilt`, `ige`, `ult`, `uge`,
  `flt`) store into `.b`, so the written pattern is 0 or 1;
* the `bool32_t` variants (`ieq32`, ..., `flt32`) store into `.i32`,
  so the written pattern is 0 or all 32 bits set.

The signed variants read 0 / -1 operands in `case 1` and `.iN` members
otherwise; the unsigned variants read `.b` as 0/1 in `case 1` and `.uN`
members otherwise.  `evaluate_flt`/`evaluate_flt32` switch over
16/32/64 only, and their binary16/32/64 `<` host comparisons are taken
as explicit function parameters (floats are not modelled). -/

/-- Generic signed comparison evaluator body shared by the `bool1_t`
integer comparisons: `cmp` is the lane comparison, `st` the boolean
store path. -/
def icmp_eval (cmp : Int → Int → Bool) (st : Bool → Nat)
    (num_components bit_size : Nat) (src : List (List Nat)) :
    Option (List (Nat × Nat)) :=
  if bit_size = 1 then
    some (lanewise2 num_components src fun v0 v1 =>
      st (cmp (int1_of_bit v0) (int1_of_bit v1)))
  else if bit_size = 8 then
    some (lanewise2 num_components src fun v0 v1 =>
      st (cmp (loadI 8 v0) (loadI 8 v1)))
  else if bit_size = 16 then
    some (lanewise2 num_components src fun v0 v1 =>
      st (cmp (loadI 16 v0) (loadI 16 v1)))
  else if bit_size = 32 then
    some (lanewise2 num_components src fun v0 v1 =>
      st (cmp (loadI 32 v0) (loadI 32 v1)))
  else if bit_size = 64 then
    some (lanewise2 num_components src fun v0 v1 =>
      st (cmp (loadI 64 v0) (loadI 64 v1)))
  else none

/-- Generic unsigned comparison evaluator body shared by the unsigned
comparisons (`case 1` reads `.b` as `uint1_t`). -/
def ucmp_eval (cmp : Nat → Nat → Bool) (st : Bool → Nat)
    (num_components bit_size : Nat) (src : List (List Nat)) :
    Option (List (Nat × Nat)) :=
  if bit_size = 1 then
    some (lanewise2 num_components src fun v0 v1 =>
      st (cmp (uint1_of_bit v0) (uint1_of_bit v1)))
  else if bit_size = 8 then
    some (lanewise2 num_components src fun v0 v1 =>
      st (cmp (loadU 8 v0) (loadU 8 v1)))
  else if bit_size = 16 then
    some (lanewise2 num_components src fun v0 v1 =>
      st (cmp (loadU 16 v0) (loadU 16 v1)))
  else if bit_size = 32 then
    some (lanewise2 num_components src fun v0 v1 =>
      st (cmp (loadU 32 v0) (loadU 32 v1)))
  else if bit_size = 64 then
    some (lanewise2 num_components src fun v0 v1 =>
      st (cmp (loadU 64 v0) (loadU 64 v1)))
  else none

/-- Translation of `evaluate_ieq` (`bool1_t dst = src0 == src1`). -/
def evaluate_ieq : Nat → Nat → List (List Nat) → Option (List (Nat × Nat)) :=
  icmp_eval (fun a b => a == b) bool1_store

/-- Translation of `evaluate_ine` (`bool1_t dst = src0 != src1`). -/
def evaluate_ine : Nat → Nat → List (List Nat) → Option (List (Nat × Nat)) :=
  icmp_eval (fun a b => a != b) bool1_store

/-- Translation of `evaluate_ilt` (`bool1_t dst = src0 < src1`). -/
def evaluate_ilt : Nat → Nat → List (List Nat) → Option (List (Nat × Nat)) :=
  icmp_eval (fun a b => decide (a < b)) bool1_store

/-- Translation of `evaluate_ige` (`bool1_t dst = src0 >= src1`). -/
def evaluate_ige : Nat → Nat → List (List Nat) → Option (List (Nat × Nat)) :=
  icmp_eval (fun a b => decide (a ≥ b)) bool1_store

/-- Translation of `evaluate_ult` (`bool1_t dst = src0 < src1`,
unsigned). -/
def evaluate_ult : Nat → Nat → List (List Nat) → Option (List (Nat × Nat)) :=
  ucmp_eval (fun a b => decide (a < b)) bool1_store

/-- Translation of `evaluate_uge` (`bool1_t dst = src0 >= src1`,
unsigned). -/
def evaluate_uge : Nat → Nat → List (List Nat) → Option (List (Nat × Nat)) :=
  ucmp_eval (fun a b => decide (a ≥ b)) bool1_store

/-- Translation of `evaluate_ieq32` (`bool32_t dst = src0 == src1`). -/
def evaluate_ieq32 : Nat → Nat → List (List Nat) → Option (List (Nat × Nat)) :=
  icmp_eval (fun a b => a == b) bool32_store

/-- Translation of `evaluate_ine32` (`bool32_t dst = src0 != src1`). -/
def evaluate_ine32 : Nat → Nat → List (List Nat) → Option (List (Nat × Nat)) :=
  icmp_eval (fun a b => a != b) bool32_store

/-- Translation of `evaluate_ilt32` (`bool32_t dst = src0 < src1`). -/
def evaluate_ilt32 : Nat → Nat → List (List Nat) → Option (List (Nat × Nat)) :=
  icmp_eval (fun a b => decide (a < b)) bool32_store

/-- Translation of `evaluate_ige32` (`bool32_t dst = src0 >= src1`). -/
def evaluate_ige32 : Nat → Nat → List (List Nat) → Option (List (Nat × Nat)) :=
  icmp_eval (fun a b => decide (a ≥ b)) bool32_store

/-- Translation of `evaluate_ult32` (`bool32_t dst = src0 < src1`,
unsigned). -/
def evaluate_ult32 : Nat → Nat → List (List Nat) → Option (List (Nat × Nat)) :=
  ucmp_eval (fun a b => decide (a < b)) bool32_store

/-- Translation of `evaluate_uge32` (`bool32_t dst = src0 >= src1`,
unsigned). -/
def evaluate_uge32 : Nat → Nat → List (List Nat) → Option (List (Nat × Nat)) :=
  ucmp_eval (fun a b => decide (a ≥ b)) bool32_store

/-- Translation of `evaluate_flt` (`bool1_t dst = src0 < src1` on
floats): switch over 16/32/64; `lt16` is the comparison after
`_mesa_half_to_float` decoding, `lt32`/`lt64` the host `float`/`double`
comparisons, all abstract. -/
def evaluate_flt (lt16 lt32 lt64 : Nat → Nat → Bool)
    (num_components bit_size : Nat) (src : List (List Nat)) :
    Option (List (Nat × Nat)) :=
  if bit_size = 16 then
    some (lanewise2 num_components src fun v0 v1 => bool1_store (lt16 v0 v1))
  else if bit_size = 32 then
    some (lanewise2 num_components src fun v0 v1 => bool1_store (lt32 v0 v1))
  else if bit_size = 64 then
    some (lanewise2 num_components src fun v0 v1 => bool1_store (lt64 v0 v1))
  else none

/-- Translation of `evaluate_flt32` (`bool32_t dst = src0 < src1` on
floats), destination store `.i32 = -(int)dst`. -/
def evaluate_flt32 (lt16 lt32 lt64 : Nat → Nat → Bool)
    (num_components bit_size : Nat) (src : List (List Nat)) :
    Option (List (Nat × Nat)) :=
  if bit_size = 16 then
    some (lanewise2 num_components src fun v0 v1 => bool32_store (lt16 v0 v1))
  else if bit_size = 32 then
    some (lanewise2 num_components src fun v0 v1 => bool32_store (lt32 v0 v1))
  else if bit_size = 64 then
    some (lanewise2 num_components src fun v0 v1 => bool32_store (lt64 v0 v1))
  else none

/-! ## evaluate_ball_iequal4 -/

/-- Shared branch body of `evaluate_ball_iequal4`: reads lanes 0..3 of
both sources through `load`, computes
`dst.x = (src0.x == src1.x) && ... && (src0.w == src1.w)` and performs
the single reducing store `_dst_val[0].b = -(int)dst.x`. -/
def ball_iequal4_branch (load : Nat → Int) (s0 s1 : List Nat) :
    List (Nat × Nat) :=
  let dstx : Bool :=
    (load (s0.getD 0 0) == load (s1.getD 0 0)) &&
    (load (s0.getD 1 0) == load (s1.getD 1 0)) &&
    (load (s0.getD 2 0) == load (s1.getD 2 0)) &&
    (load (s0.getD 3 0) == load (s1.getD 3 0))
  [(0, bool1_store dstx)]

/-- Translation of `evaluate_ball_iequal4`: `num_components` is unused
(the op reduces 4 source lanes into destination lane 0 only). -/
def evaluate_ball_iequal4 (num_components bit_size : Nat)
    (src : List (List Nat)) : Option (List (Nat × Nat)) :=
  if bit_size = 1 then
    some (ball_iequal4_branch int1_of_bit (src.getD 0 []) (src.getD 1 []))
  else if bit_size = 8 then
    some (ball_iequal4_branch (loadI 8) (src.getD 0 []) (src.getD 1 []))
  else if bit_size = 16 then
    some (ball_iequal4_branch (loadI 16) (src.getD 0 []) (src.getD 1 []))
  else if bit_size = 32 then
    some (ball_iequal4_branch (loadI 32) (src.getD 0 []) (src.getD 1 []))
  else if bit_size = 64 then
    some (ball_iequal4_branch (loadI 64) (src.getD 0 []) (src.getD 1 []))
  else none

/-! ## evaluate_ubfe and evaluate_ubitfield_extract

Both are fixed at 32 bits (`UNUSED unsigned bit_size`, no switch, so no
unreachable default): `base` is `.u32` of source 0, `offset`/`bits` are
`.i32` of sources 1 and 2.  The guard arithmetic on `offset`/`bits` is
C `int` arithmetic: where its result can exceed the `int32_t` range the
sum wraps, per this file's overflow convention (`wrap32`).  The C
shifts are partial: a shift of a 32-bit `unsigned` by a count outside
0..31, or of an `unsigned long long` by a count outside 0..63, is
undefined behaviour, modelled as `none`; a lane function returns
`none` exactly when the C program's behaviour on that lane is
undefined. -/

/-- Wrapped `int` (32-bit) arithmetic result, the file's convention
for C signed-overflow. -/
def wrap32 (x : Int) : Int := Int.bmod x (2 ^ 32)

/-- C right shift of a 32-bit `unsigned` by an `int` count: defined
only for counts 0..31. -/
def shr_u32 (x : Nat) (count : Int) : Option Nat :=
  if 0 ≤ count ∧ count < 32 then some (x >>> count.toNat) else none

/-- C left shift of a 32-bit `unsigned` by an `int` count: defined only
for counts 0..31; the result wraps modulo `2^32`. -/
def shl_u32 (x : Nat) (count : Int) : Option Nat :=
  if 0 ≤ count ∧ count < 32 then some ((x <<< count.toNat) % 2 ^ 32) else none

/-- C left shift of an `unsigned long long` by an `int` count: defined
only for counts 0..63. -/
def shl_u64 (x : Nat) (count : Int) : Option Nat :=
  if 0 ≤ count ∧ count < 64 then some ((x <<< count.toNat) % 2 ^ 64) else none

/-- Lane body of `evaluate_ubfe` (the hardware-style bitfield extract):
```
if (bits == 0) dst = 0;
else if (bits < 0 || offset < 0) dst = 0;
else if (offset + bits < 32) dst = (base << (32 - bits - offset)) >> (32 - bits);
else dst = base >> offset;
```
The guard `offset + bits` and the count `32 - bits - offset` wrap (the
intermediate `32 - bits` is in `int` range once `bits > 0`); the result
is `none` where a shift count leaves 0..31. -/
def ubfe_lane (v0 v1 v2 : Nat) : Option Nat :=
  let base := loadU 32 v0
  let offset := loadI 32 v1
  let bits := loadI 32 v2
  if bits = 0 then some 0
  else if bits < 0 ∨ offset < 0 then some 0
  else if wrap32 (offset + bits) < 32 then do
    let t ← shl_u32 base (wrap32 (32 - bits - offset))
    shr_u32 t (32 - bits)
  else
    shr_u32 base offset

/-- Translation of `evaluate_ubfe`.  The dispatch layer is total: a
lane on which the C program's behaviour is undefined has no defined
stored value and is represented by the placeholder 0 here; the
dispatch-structure property proved about this evaluator does not
depend on lane values. -/
def evaluate_ubfe (num_components bit_size : Nat) (src : List (List Nat)) :
    Option (List (Nat × Nat)) :=
  some (lanewise3 num_components src fun a b c => (ubfe_lane a b c).getD 0)

/-- Lane body of `evaluate_ubitfield_extract` (the GLSL-style extract):
```
if (bits == 0) dst = 0;
else if (bits < 0 || offset < 0 || offset + bits > 32) dst = 0;
else dst = (base >> offset) & ((1ull << bits) - 1);
```
The guard sum `offset + bits` wraps; in the extract branch both shifts
are checked for definedness (`base >> offset` on `unsigned`,
`1ull << bits` on `unsigned long long`) and the `uint32_t` store
truncates. -/
def ubitfield_extract_lane (v0 v1 v2 : Nat) : Option Nat :=
  let base := loadU 32 v0
  let offset := loadI 32 v1
  let bits := loadI 32 v2
  if bits = 0 then some 0
  else if bits < 0 ∨ offset < 0 ∨ wrap32 (offset + bits) > 32 then some 0
  else do
    let sh ← shr_u32 base offset
    let mask ← shl_u64 1 bits
    some ((sh &&& (mask - 1)) % 2 ^ 32)

/-- Translation of `evaluate_ubitfield_extract`, total at the dispatch
layer in the same way as `evaluate_ubfe`. -/
def evaluate_ubitfield_extract (num_components bit_size : Nat)
    (src : List (List Nat)) : Option (List (Nat × Nat)) :=
  some (lanewise3 num_components src
    fun a b c => (ubitfield_extract_lane a b c).getD 0)

/-! ## evaluate_f2i1 -/

/-- Lane body shared by the branches of `evaluate_f2i1`:
`int1_t dst = src0; _dst_val[_i].b = dst & 1;` where `conv` is the host
float-to-`int8_t` conversion of the branch (16/32/64-bit source), taken
as an abstract parameter. -/
def f2i1_lane (conv : Nat → Int) (v : Nat) : Nat :=
  storeBit1 (conv v)

/-- Translation of `evaluate_f2i1`: switch over source widths 16/32/64
with the fatal default. -/
def evaluate_f2i1 (conv16 conv32 conv64 : Nat → Int)
    (num_components bit_size : Nat) (src : List (List Nat)) :
    Option (List (Nat × Nat)) :=
  if bit_size = 16 then some (lanewise1 num_components src (f2i1_lane conv16))
  else if bit_size = 32 then some (lanewise1 num_components src (f2i1_lane conv32))
  else if bit_size = 64 then some (lanewise1 num_components src (f2i1_lane conv64))
  else none

/-! ## Dispatcher -/

/-- Opcode enumeration (`nir_op`), restricted to the operations embedded
in this development.  In the C source the enumeration is closed and the
dispatcher's `switch` covers every member, with
`default: unreachable("shouldn't get here")` reachable only through an
out-of-enumeration value, which a closed inductive type cannot
represent. -/
inductive nir_op where
  | iadd | iadd_sat | uadd_sat
  | idiv | udiv | imod | irem | umod
  | ieq | ine | ilt | ige | ult | uge
  | ieq32 | ine32 | ilt32 | ige32 | ult32 | uge32
  | ball_iequal4 | ubfe | ubitfield_extract
  deriving DecidableEq

/-- Translation of `nir_eval_const_opcode`: forward the destination,
component count, bit width and sources to the evaluator of `op`. -/
def nir_eval_const_opcode (op : nir_op) (num_components bit_width : Nat)
    (src : List (List Nat)) : Option (List (Nat × Nat)) :=
  match op with
  | .iadd => evaluate_iadd num_components bit_width src
  | .iadd_sat => evaluate_iadd_sat num_components bit_width src
  | .uadd_sat => evaluate_uadd_sat num_components bit_width src
  | .idiv => evaluate_idiv num_components bit_width src
  | .udiv => evaluate_udiv num_components bit_width src
  | .imod => evaluate_imod num_components bit_width src
  | .irem => evaluate_irem num_components bit_width src
  | .umod => evaluate_umod num_components bit_width src
  | .ieq => evaluate_ieq num_components bit_width src
  | .ine => evaluate_ine num_components bit_width src
  | .ilt => evaluate_ilt num_components bit_width src
  | .ige => evaluate_ige num_components bit_width src
  | .ult => evaluate_ult num_components bit_width src
  | .uge => evaluate_uge num_components bit_width src
  | .ieq32 => evaluate_ieq32 num_components bit_width src
  | .ine32 => evaluate_ine32 num_components bit_width src
  | .ilt32 => evaluate_ilt32 num_components bit_width src
  | .ige32 => evaluate_ige32 num_components bit_width src
  | .ult32 => evaluate_ult32 num_components bit_width src
  | .uge32 => evaluate_uge32 num_components bit_width src
  | .ball_iequal4 => evaluate_ball_iequal4 num_components bit_width src
  | .ubfe => evaluate_ubfe num_components bit_width src
  | .ubitfield_extract => evaluate_ubitfield_extract num_components bit_width src

/-- Legal bit widths per embedded opcode, from the `case` labels of each
evaluator's switch: the integer ALU ops accept 1/8/16/32/64 and the two
bitfield-extract ops are fixed at 32 bits (no switch, every call legal). -/
def legal_bit_widths (op : nir_op) (w : Nat) : Bool :=
  match op with
  | .ubfe | .ubitfield_extract => true
  | _ => w == 1 || w == 8 || w == 16 || w == 32 || w == 64

/-! ## Arithmetic helper lemmas -/

theorem tmod_neg_left (a b : Int) : (-a).tmod b = -(a.tmod b) := by
  simp only [Int.tmod_def, Int.neg_tdiv]
  ring

theorem tmod_bounds_pos (a b : Int) (hb : 0 < b) :
    -b < a.tmod b ∧ a.tmod b < b := by
  refine ⟨?_, Int.tmod_lt_of_pos a hb⟩
  rcases le_or_lt 0 a with ha | ha
  · have h := Int.tmod_nonneg b ha
    omega
  · have h1 := Int.tmod_lt_of_pos (-a) hb
    have h2 := tmod_neg_left a b
    omega

theorem tmod_bounds_neg (a b : Int) (hb : b < 0) :
    b < a.tmod b ∧ a.tmod b < -b := by
  have h := tmod_bounds_pos a (-b) (by omega)
  rw [Int.tmod_neg] at h
  omega

theorem tmod_nonpos (a b : Int) (ha : a ≤ 0) : a.tmod b ≤ 0 := by
  have h := Int.tmod_nonneg b (show (0 : Int) ≤ -a by omega)
  have h2 := tmod_neg_left a b
  omega

theorem dvd_sub_tmod (a b : Int) : b ∣ a - a.tmod b := by
  refine ⟨a.tdiv b, ?_⟩
  have h := Int.tmod_add_tdiv a b
  linarith

theorem two_pow_split (w : Nat) (hw : 1 ≤ w) :
    (2 : Int) ^ w = 2 * 2 ^ (w - 1) := by
  conv_lhs => rw [show w = (w - 1) + 1 by omega]
  rw [pow_succ]
  ring

theorem cast_two_pow (w : Nat) : ((2 ^ w : Nat) : Int) = (2 : Int) ^ w := by
  push_cast
  ring

theorem storeN_lt (w : Nat) (x : Int) : storeN w x < 2 ^ w := by
  unfold storeN
  have hpos : (0 : Int) < 2 ^ w := by positivity
  have h1 := Int.emod_nonneg x (show ((2 : Int) ^ w) ≠ 0 by omega)
  have h2 := Int.emod_lt_of_pos x hpos
  have hc := cast_two_pow w
  omega

theorem storeN_zero (w : Nat) : storeN w 0 = 0 := by
  simp [storeN]

theorem loadI_range (w : Nat) (v : Nat) :
    -(2 ^ (w - 1)) ≤ loadI w v ∧ loadI w v < 2 ^ (w - 1) := by
  unfold loadI toSigned
  have hc := cast_two_pow w
  have hc2 := cast_two_pow (w - 1)
  have h1 : v % 2 ^ w < 2 ^ w := Nat.mod_lt _ (by positivity)
  have hp : (0 : Int) < 2 ^ (w - 1) := by positivity
  rcases Nat.lt_or_ge w 1 with hw | hw
  · have hw0 : w = 0 := by omega
    subst hw0
    simp_all
  · have hs := two_pow_split w hw
    split_ifs with hcase <;> omega

theorem emod_two_pow_cases (w : Nat) (hw : 1 ≤ w) (x : Int)
    (hlo : -(2 ^ (w - 1)) ≤ x) (hhi : x < 2 ^ (w - 1)) :
    x % (2 : Int) ^ w = x ∨ x % (2 : Int) ^ w = x + 2 ^ w := by
  have hs := two_pow_split w hw
  have hp : (0 : Int) < 2 ^ (w - 1) := by positivity
  rcases le_or_lt 0 x with hx | hx
  · left
    exact Int.emod_eq_of_lt hx (by omega)
  · right
    calc x % (2 : Int) ^ w = (x + 2 ^ w) % 2 ^ w := Int.add_emod_self.symm
    _ = x + 2 ^ w := Int.emod_eq_of_lt (by omega) (by omega)

theorem loadI_storeN (w : Nat) (hw : 1 ≤ w) (x : Int)
    (hlo : -(2 ^ (w - 1)) ≤ x) (hhi : x < 2 ^ (w - 1)) :
    loadI w (storeN w x) = x := by
  have hs := two_pow_split w hw
  have hc := cast_two_pow w
  have hc2 := cast_two_pow (w - 1)
  have hpos : (0 : Int) < 2 ^ w := by positivity
  have h1 := Int.emod_nonneg x (show ((2 : Int) ^ w) ≠ 0 by omega)
  have h2 := Int.emod_lt_of_pos x hpos
  have hval := emod_two_pow_cases w hw x hlo hhi
  unfold loadI storeN toSigned
  have ht : ((x % (2 : Int) ^ w).toNat : Int) = x % 2 ^ w := Int.toNat_of_nonneg h1
  have hnat : (x % (2 : Int) ^ w).toNat % 2 ^ w = (x % (2 : Int) ^ w).toNat :=
    Nat.mod_eq_of_lt (by omega)
  rw [hnat]
  split_ifs with hcase <;> omega

theorem loadI_storeN_bmod (w : Nat) (hw : 1 ≤ w) (x : Int) :
    loadI w (storeN w x) = Int.bmod x (2 ^ w) := by
  have hs := two_pow_split w hw
  have hc := cast_two_pow w
  have hm : 0 < 2 ^ w := by positivity
  have hb1 := Int.le_bmod (x := x) hm
  have hb2 := Int.bmod_lt (x := x) hm
  have hrange : -((2 : Int) ^ (w - 1)) ≤ Int.bmod x (2 ^ w) ∧
      Int.bmod x (2 ^ w) < 2 ^ (w - 1) := by
    constructor <;> omega
  have hemod : x % (2 : Int) ^ w = Int.bmod x (2 ^ w) % (2 : Int) ^ w := by
    have h := Int.bmod_emod (x := x) (m := 2 ^ w)
    rw [hc] at h
    exact h.symm
  calc loadI w (storeN w x)
      = loadI w (storeN w (Int.bmod x (2 ^ w))) := by unfold storeN; rw [hemod]
    _ = Int.bmod x (2 ^ w) := loadI_storeN w hw _ hrange.1 hrange.2

theorem storeBit1_lt_two (x : Int) : storeBit1 x < 2 := by
  unfold storeBit1
  have h1 := Int.emod_nonneg x (show (2 : Int) ≠ 0 by omega)
  have h2 := Int.emod_lt_of_pos x (show (0 : Int) < 2 by omega)
  omega

theorem and_one_lt_two (n : Nat) : n &&& 1 < 2 :=
  Nat.lt_of_le_of_lt Nat.and_le_right (by omega)

/-! ## Claim C1 -/

/-- Claim C1 (status: code bug).  The claim says `uadd_sat`/`iadd_sat`
saturate at every width in 1/8/16/32/64, equalling the exact sum when it
is representable and the saturated bound otherwise.  At widths 1, 8 and
16 the C integer promotion of the operands to `int` makes the
wraparound test `(src0 + src1) < src0` compare exact sums, so it never
fires and the stored result silently wraps instead of saturating: at
bit size 8, `uadd_sat(250, 10)` stores 4 (not the bound 255 the spec's
own scenario demands) and `iadd_sat(127, 1)` stores `0x80`, which reads
back as -128 (not 127).  The saturation logic does work at 32/64 bits,
where the unpromoted unsigned arithmetic wraps before the test. -/
theorem uadd_sat_promotion_defeats_saturation :
    evaluate_uadd_sat 1 8 [[250], [10]] = some [(0, 4)] ∧
    250 + 10 > MAX_UINT_FOR_SIZE 8 ∧ (4 : Nat) ≠ MAX_UINT_FOR_SIZE 8 ∧
    evaluate_iadd_sat 1 8 [[127], [1]] = some [(0, 128)] ∧
    loadI 8 128 = -128 ∧
    uadd_sat_lane32 4294967290 10 = MAX_UINT_FOR_SIZE 32 := by decide

/-! ## Claim C3 -/

/-- Claim C3 (status: confirmed).  `ball_iequal4` at bit size 32 on
source0 = (1,2,3,4) and source1 = (1,2,3,5) performs exactly one store,
to destination lane 0, of boolean false (raw 0); with
source1 = (1,2,3,4) the single lane-0 store is boolean true (raw 1,
the `.b` result of `-(int)dst.x`), which the 1-bit 0 / -1 convention
reads back as -1, the all-bits-set boolean. -/
theorem ball_iequal4_reduction_scenarios :
    evaluate_ball_iequal4 1 32 [[1, 2, 3, 4], [1, 2, 3, 5]] = some [(0, 0)] ∧
    evaluate_ball_iequal4 1 32 [[1, 2, 3, 4], [1, 2, 3, 4]] = some [(0, 1)] ∧
    int1_of_bit 1 = -1 ∧ int1_of_bit 0 = 0 := by decide

/-! ## Claim C7 -/

/-- Claim C7 (status: confirmed).  Every 1-bit-destination lane body of
the embedded evaluators masks its result to bit 0 before the store
(`dst & 1`, or the `_Bool` conversion of `-(int)dst` for comparison
results), so the stored pattern is always 0 or 1 — all bits above bit 0
are zero — for all operand values, including the abstract-converted
`f2i1` whose host float-to-int result is arbitrary. -/
theorem one_bit_destinations_masked :
    (∀ v0 v1, iadd_lane1 v0 v1 < 2) ∧
    (∀ v0 v1, iadd_sat_lane1 v0 v1 < 2) ∧
    (∀ v0 v1, uadd_sat_lane1 v0 v1 < 2) ∧
    (∀ v0 v1, idiv_lane1 v0 v1 < 2) ∧
    (∀ v0 v1, udiv_lane1 v0 v1 < 2) ∧
    (∀ v0 v1, imod_lane1 v0 v1 < 2) ∧
    (∀ v0 v1, irem_lane1 v0 v1 < 2) ∧
    (∀ v0 v1, umod_lane1 v0 v1 < 2) ∧
    (∀ conv v, f2i1_lane conv v < 2) ∧
    (∀ c, bool1_store c < 2) := by
  refine ⟨?_, ?_, ?_, ?_, ?_, ?_, ?_, ?_, ?_, ?_⟩
  · intro v0 v1
    simp only [iadd_lane1]
    exact storeBit1_lt_two _
  · intro v0 v1
    simp only [iadd_sat_lane1]
    exact storeBit1_lt_two _
  · intro v0 v1
    simp only [uadd_sat_lane1]
    exact and_one_lt_two _
  · intro v0 v1
    simp only [idiv_lane1]
    exact storeBit1_lt_two _
  · intro v0 v1
    simp only [udiv_lane1]
    exact and_one_lt_two _
  · intro v0 v1
    simp only [imod_lane1]
    exact storeBit1_lt_two _
  · intro v0 v1
    simp only [irem_lane1]
    exact storeBit1_lt_two _
  · intro v0 v1
    simp only [umod_lane1]
    exact and_one_lt_two _
  · intro conv v
    simp only [f2i1_lane]
    exact storeBit1_lt_two _
  · intro c
    cases c <;> decide

/-! ## Claim C8 -/

/-- Claim C8 (status: confirmed).  `iadd` at bit size 8 on operands 127
and 1 stores `0x80`, which reads back as -128: two's-complement
wraparound, not clamping or promotion.  In general the decoded result
of the non-saturating add at each width `w` is the exact sum reduced
modulo `2^w` into the signed range of `w` (`Int.bmod`), including the
1-bit lanes under their 0 / -1 convention. -/
theorem iadd_two_complement_wraparound :
    evaluate_iadd 1 8 [[127], [1]] = some [(0, 128)] ∧
    loadI 8 128 = -128 ∧
    (∀ v0 v1, loadI 8 (iadd_lane 8 v0 v1) =
      Int.bmod (loadI 8 v0 + loadI 8 v1) (2 ^ 8)) ∧
    (∀ v0 v1, loadI 16 (iadd_lane 16 v0 v1) =
      Int.bmod (loadI 16 v0 + loadI 16 v1) (2 ^ 16)) ∧
    (∀ v0 v1, loadI 32 (iadd_lane 32 v0 v1) =
      Int.bmod (loadI 32 v0 + loadI 32 v1) (2 ^ 32)) ∧
    (∀ v0 v1, loadI 64 (iadd_lane 64 v0 v1) =
      Int.bmod (loadI 64 v0 + loadI 64 v1) (2 ^ 64)) ∧
    (∀ v0 v1, int1_of_bit (iadd_lane1 v0 v1) =
      Int.bmod (int1_of_bit v0 + int1_of_bit v1) (2 ^ 1)) := by
  refine ⟨by decide, by decide, ?_, ?_, ?_, ?_, ?_⟩
  · intro v0 v1
    unfold iadd_lane
    exact loadI_storeN_bmod 8 (by omega) _
  · intro v0 v1
    unfold iadd_lane
    exact loadI_storeN_bmod 16 (by omega) _
  · intro v0 v1
    unfold iadd_lane
    exact loadI_storeN_bmod 32 (by omega) _
  · intro v0 v1
    unfold iadd_lane
    exact loadI_storeN_bmod 64 (by omega) _
  · intro v0 v1
    rcases eq_or_ne v0 0 with h0 | h0 <;> rcases eq_or_ne v1 0 with h1 | h1 <;>
      simp [iadd_lane1, int1_of_bit, loadB, storeBit1, h0, h1]

/-! ## Claims C5 and C10 -/

theorem wrap32_eq_self (x : Int) (h1 : -(2 ^ 31) ≤ x) (h2 : x < 2 ^ 31) :
    wrap32 x = x := by
  have ha := loadI_storeN_bmod 32 (by omega) x
  have hb := loadI_storeN 32 (by omega) x h1 h2
  unfold wrap32
  rw [← ha]
  exact hb

/-- Counterexample for claim C5 as stated.  At base raw `0x80000000`,
offset = `0x7FFFFFFF`, bits = 1 the combination is out of range
(`offset + bits = 2^31 > 32`), so the claim demands the fixed value 0;
but the C `int` guard sum wraps to `-2^31`, the guard does not fire,
and the extract branch shifts `base >> 0x7FFFFFFF` — a count far
outside 0..31, which is undefined behaviour (`none`), not a
reproducible 0 (an x86 build, masking the count mod 32, yields 1). -/
theorem ubitfield_extract_guard_wraps :
    loadI 32 2147483647 = 2147483647 ∧ loadI 32 1 = 1 ∧
    (0 : Int) ≤ 2147483647 ∧ (0 : Int) < 1 ∧
    (2147483647 : Int) + 1 > 32 ∧
    ubitfield_extract_lane 2147483648 2147483647 1 = none ∧
    (none : Option Nat) ≠ some 0 := by decide

/-- Claim C5, amended (status: corrected).  `ubitfield_extract` yields
0 when `bits == 0`, and yields the fixed value 0 for every out-of-range
offset/bits combination on which the C `int` guard actually fires:
`bits < 0`, `offset < 0`, or `32 < offset + bits` with the sum
representable in `int` (`offset + bits < 2^31`).  When the sum
overflows `int`, the wrapped guard misses and the extract branch
performs an undefined shift (see the counterexample).  In particular
`offset = 30`, `bits = 8` (38 > 32) returns 0 for every base. -/
theorem ubitfield_extract_undefined_yields_zero :
    (∀ v0 v1 v2, loadI 32 v2 = 0 → ubitfield_extract_lane v0 v1 v2 = some 0) ∧
    (∀ v0 v1 v2, loadI 32 v2 < 0 ∨ loadI 32 v1 < 0 →
      ubitfield_extract_lane v0 v1 v2 = some 0) ∧
    (∀ v0 v1 v2, 0 ≤ loadI 32 v1 → 0 < loadI 32 v2 →
        32 < loadI 32 v1 + loadI 32 v2 →
        loadI 32 v1 + loadI 32 v2 < 2 ^ 31 →
      ubitfield_extract_lane v0 v1 v2 = some 0) ∧
    (∀ base, ubitfield_extract_lane base 30 8 = some 0) := by
  refine ⟨?_, ?_, ?_, ?_⟩
  · intro v0 v1 v2 h
    simp only [ubitfield_extract_lane]
    rw [if_pos h]
  · intro v0 v1 v2 h
    simp only [ubitfield_extract_lane]
    split_ifs with hc1 hc2
    · rfl
    · rfl
    · exact absurd (h.elim (fun a => Or.inl a) (fun b => Or.inr (Or.inl b))) hc2
  · intro v0 v1 v2 h1 h2 h3 h4
    have hw : wrap32 (loadI 32 v1 + loadI 32 v2) = loadI 32 v1 + loadI 32 v2 :=
      wrap32_eq_self _ (by omega) h4
    simp only [ubitfield_extract_lane]
    rw [if_neg (by omega), if_pos (Or.inr (Or.inr (by rw [hw]; omega)))]
  · intro base
    simp only [ubitfield_extract_lane]
    rw [if_neg (by decide), if_pos (by decide)]

/-- Witness for the amended C5: the zero-bits case, the negative-bits
case (raw `0xFFFFFFFF` decodes to -1), a non-overflowing out-of-range
sum, and the spec scenario `offset = 30`, `bits = 8` at a concrete
base. -/
theorem ubitfield_extract_undefined_yields_zero_witness :
    loadI 32 0 = 0 ∧ ubitfield_extract_lane 12345 7 0 = some 0 ∧
    loadI 32 4294967295 < 0 ∧
    ubitfield_extract_lane 12345 7 4294967295 = some 0 ∧
    ubitfield_extract_lane 12345 30 8 = some 0 ∧
    ubitfield_extract_lane 4096 30 8 = some 0 :=
  ⟨by decide,
   ubitfield_extract_undefined_yields_zero.1 12345 7 0 (by decide),
   by decide,
   ubitfield_extract_undefined_yields_zero.2.1 12345 7 4294967295
     (Or.inl (by decide)),
   ubitfield_extract_undefined_yields_zero.2.2.1 12345 30 8
     (by decide) (by decide) (by decide) (by decide),
   ubitfield_extract_undefined_yields_zero.2.2.2 4096⟩

/-- Counterexample for claim C10 as stated.  The claim asserts
`base >> offset` for every `bits > 0`, `offset >= 0`,
`offset + bits >= 32`.  At offset = 40, bits = 1 (hypotheses hold, no
`int` overflow) the selected branch is `base >> 40`, an undefined
shift (`none`), not the logical shift the claim promises; and at
offset = 31, bits = `0x7FFFFFFF` the guard sum overflows, the wrapped
guard selects the low-range double-shift branch, whose left-shift
count `32 - bits - offset` wraps to a negative value — also undefined
(`none`). -/
theorem ubfe_undefined_shift_counterexample :
    (0 : Int) < loadI 32 1 ∧ (0 : Int) ≤ loadI 32 40 ∧
    32 ≤ loadI 32 40 + loadI 32 1 ∧
    ubfe_lane 5 40 1 = none ∧
    (none : Option Nat) ≠ some (loadU 32 5 >>> (loadI 32 40).toNat) ∧
    0 < loadI 32 2147483647 ∧ (0 : Int) ≤ loadI 32 31 ∧
    32 ≤ loadI 32 31 + loadI 32 2147483647 ∧
    ubfe_lane 5 31 2147483647 = none := by decide

/-- Claim C10, amended (status: corrected).  For `ubfe` (the
hardware-style extract, distinct from `ubitfield_extract`), when
`bits > 0`, `0 <= offset <= 31` and `32 <= offset + bits` with the sum
representable in `int` (`offset + bits < 2^31`), the result is
`base >> offset` (a defined logical shift), not 0; the zero-yielding
branches are exactly `bits == 0` and negative `offset`/`bits`.  For
`offset >= 32`, or an `int`-overflowing `offset + bits`, the selected
branch performs an undefined shift (see the counterexample). -/
theorem ubfe_high_range_is_shift :
    (∀ v0 v1 v2, 0 < loadI 32 v2 → 0 ≤ loadI 32 v1 → loadI 32 v1 ≤ 31 →
        32 ≤ loadI 32 v1 + loadI 32 v2 →
        loadI 32 v1 + loadI 32 v2 < 2 ^ 31 →
      ubfe_lane v0 v1 v2 = some (loadU 32 v0 >>> (loadI 32 v1).toNat)) ∧
    (∀ v0 v1 v2, loadI 32 v2 = 0 → ubfe_lane v0 v1 v2 = some 0) ∧
    (∀ v0 v1 v2, loadI 32 v2 < 0 ∨ loadI 32 v1 < 0 →
      ubfe_lane v0 v1 v2 = some 0) := by
  refine ⟨?_, ?_, ?_⟩
  · intro v0 v1 v2 h1 h2 h3 h4 h5
    have hw : wrap32 (loadI 32 v1 + loadI 32 v2) = loadI 32 v1 + loadI 32 v2 :=
      wrap32_eq_self _ (by omega) h5
    simp only [ubfe_lane]
    rw [if_neg (by omega), if_neg (by omega),
      if_neg (show ¬ wrap32 (loadI 32 v1 + loadI 32 v2) < 32 by
        rw [hw]; omega)]
    simp only [shr_u32]
    rw [if_pos ⟨h2, by omega⟩]
  · intro v0 v1 v2 h
    simp only [ubfe_lane]
    rw [if_pos h]
  · intro v0 v1 v2 h
    simp only [ubfe_lane]
    split_ifs with hc1 <;> rfl

/-- Witness for the amended C10: `ubfe` on base `0xFFFFFFFF`,
`offset = 30`, `bits = 8` (`offset + bits = 38 >= 32`, no overflow,
offset in 0..31) yields `base >> 30 = 3`, where `ubitfield_extract`
on the same input yields 0. -/
theorem ubfe_high_range_is_shift_witness :
    0 < loadI 32 8 ∧ 0 ≤ loadI 32 30 ∧ loadI 32 30 ≤ 31 ∧
    32 ≤ loadI 32 30 + loadI 32 8 ∧ loadI 32 30 + loadI 32 8 < 2 ^ 31 ∧
    ubfe_lane 4294967295 30 8 =
      some (loadU 32 4294967295 >>> (loadI 32 30).toNat) ∧
    loadU 32 4294967295 >>> (loadI 32 30).toNat = 3 :=
  ⟨by decide, by decide, by decide, by decide, by decide,
   ubfe_high_range_is_shift.1 4294967295 30 8
     (by decide) (by decide) (by decide) (by decide) (by decide),
   by decide⟩

/-! ## Claim C9 -/

theorem isSome_switch5 {α : Type} (a b c d e : α) (w : Nat) :
    (if w = 1 then some a else if w = 8 then some b else if w = 16 then some c
      else if w = 32 then some d else if w = 64 then some e
      else (none : Option α)).isSome =
      (w == 1 || w == 8 || w == 16 || w == 32 || w == 64) := by
  split_ifs with h1 h2 h3 h4 h5 <;> simp_all

/-- Claim C9 (status: confirmed).  For every embedded opcode and every
bit width, dispatching through `nir_eval_const_opcode` reaches a defined
switch case (returns `some` stores) exactly when the width is in the
opcode's legal set; a width outside the set reaches the fatal
`unreachable("unknown bit width")` default (modelled as `none`), so
under the precondition of a legal (opcode, bit width) pair the abort
branch is unreachable.  The dispatcher's own `default:
unreachable("shouldn't get here")` needs an out-of-enumeration opcode
value, which the closed `nir_op` type cannot express. -/
theorem dispatch_hits_case_iff_legal_width
    (op : nir_op) (nc w : Nat) (src : List (List Nat)) :
    (nir_eval_const_opcode op nc w src).isSome = legal_bit_widths op w := by
  cases op <;>
    simp only [nir_eval_const_opcode, legal_bit_widths, evaluate_iadd,
      evaluate_iadd_sat, evaluate_uadd_sat, evaluate_idiv, evaluate_udiv,
      evaluate_imod, evaluate_irem, evaluate_umod, evaluate_ieq, evaluate_ine,
      evaluate_ilt, evaluate_ige, evaluate_ult, evaluate_uge, evaluate_ieq32,
      evaluate_ine32, evaluate_ilt32, evaluate_ige32, evaluate_ult32,
      evaluate_uge32, evaluate_ball_iequal4, evaluate_ubfe,
      evaluate_ubitfield_extract, icmp_eval, ucmp_eval] <;>
    first
      | rfl
      | exact isSome_switch5 _ _ _ _ _ w

/-! ## Claim C2 -/

theorem bool32_store_canon (c : Bool) :
    (bool32_store c == 0 || bool32_store c == 2 ^ 32 - 1) = true := by
  cases c <;> decide

theorem bool1_store_canon (c : Bool) :
    (bool1_store c == 0 || bool1_store c == 1) = true := by
  cases c <;> decide

theorem all_icmp (cmp : Int → Int → Bool) (st : Bool → Nat) (P : Nat → Bool)
    (h : ∀ c, P (st c) = true) (nc w : Nat) (src : List (List Nat)) :
    (((icmp_eval cmp st nc w src).getD []).all fun p => P p.2) = true := by
  unfold icmp_eval
  split_ifs <;> simp [lanewise2, List.all_eq_true, h]

theorem all_ucmp (cmp : Nat → Nat → Bool) (st : Bool → Nat) (P : Nat → Bool)
    (h : ∀ c, P (st c) = true) (nc w : Nat) (src : List (List Nat)) :
    (((ucmp_eval cmp st nc w src).getD []).all fun p => P p.2) = true := by
  unfold ucmp_eval
  split_ifs <;> simp [lanewise2, List.all_eq_true, h]

theorem all_flt32 (P : Nat → Bool) (h : ∀ c, P (bool32_store c) = true)
    (lt16 lt32 lt64 : Nat → Nat → Bool) (nc w : Nat) (src : List (List Nat)) :
    (((evaluate_flt32 lt16 lt32 lt64 nc w src).getD []).all
      fun p => P p.2) = true := by
  unfold evaluate_flt32
  split_ifs <;> simp [lanewise2, List.all_eq_true, h]

theorem all_flt (P : Nat → Bool) (h : ∀ c, P (bool1_store c) = true)
    (lt16 lt32 lt64 : Nat → Nat → Bool) (nc w : Nat) (src : List (List Nat)) :
    (((evaluate_flt lt16 lt32 lt64 nc w src).getD []).all
      fun p => P p.2) = true := by
  unfold evaluate_flt
  split_ifs <;> simp [lanewise2, List.all_eq_true, h]

/-- Claim C2 (status: confirmed).  For every embedded comparison
evaluator, at every bit-size branch (the integer comparisons switch over
1/8/16/32/64, the float comparisons over 16/32/64 with their host float
compares abstract), every written result lane is a canonical boolean:
the `bool32_t` variants store `.i32 = -(int)dst`, a pattern that is
all-zero or all 32 bits set (`2^32 - 1`, i.e. -1), and the `bool1_t`
variants store `.b = -(int)dst`, a pattern that is exactly 0 or 1. -/
theorem comparison_results_canonical_bool :
    (∀ nc w src, (((evaluate_ieq32 nc w src).getD []).all
      fun p => p.2 == 0 || p.2 == 2 ^ 32 - 1) = true) ∧
    (∀ nc w src, (((evaluate_ine32 nc w src).getD []).all
      fun p => p.2 == 0 || p.2 == 2 ^ 32 - 1) = true) ∧
    (∀ nc w src, (((evaluate_ilt32 nc w src).getD []).all
      fun p => p.2 == 0 || p.2 == 2 ^ 32 - 1) = true) ∧
    (∀ nc w src, (((evaluate_ige32 nc w src).getD []).all
      fun p => p.2 == 0 || p.2 == 2 ^ 32 - 1) = true) ∧
    (∀ nc w src, (((evaluate_ult32 nc w src).getD []).all
      fun p => p.2 == 0 || p.2 == 2 ^ 32 - 1) = true) ∧
    (∀ nc w src, (((evaluate_uge32 nc w src).getD []).all
      fun p => p.2 == 0 || p.2 == 2 ^ 32 - 1) = true) ∧
    (∀ lt16 lt32 lt64 nc w src,
      (((evaluate_flt32 lt16 lt32 lt64 nc w src).getD []).all
        fun p => p.2 == 0 || p.2 == 2 ^ 32 - 1) = true) ∧
    (∀ nc w src, (((evaluate_ieq nc w src).getD []).all
      fun p => p.2 == 0 || p.2 == 1) = true) ∧
    (∀ nc w src, (((evaluate_ine nc w src).getD []).all
      fun p => p.2 == 0 || p.2 == 1) = true) ∧
    (∀ nc w src, (((evaluate_ilt nc w src).getD []).all
      fun p => p.2 == 0 || p.2 == 1) = true) ∧
    (∀ nc w src, (((evaluate_ige nc w src).getD []).all
      fun p => p.2 == 0 || p.2 == 1) = true) ∧
    (∀ nc w src, (((evaluate_ult nc w src).getD []).all
      fun p => p.2 == 0 || p.2 == 1) = true) ∧
    (∀ nc w src, (((evaluate_uge nc w src).getD []).all
      fun p => p.2 == 0 || p.2 == 1) = true) ∧
    (∀ lt16 lt32 lt64 nc w src,
      (((evaluate_flt lt16 lt32 lt64 nc w src).getD []).all
        fun p => p.2 == 0 || p.2 == 1) = true) := by
  refine ⟨?_, ?_, ?_, ?_, ?_, ?_, ?_, ?_, ?_, ?_, ?_, ?_, ?_, ?_⟩
  · intro nc w src
    exact all_icmp _ _ (fun x => x == 0 || x == 2 ^ 32 - 1)
      bool32_store_canon nc w src
  · intro nc w src
    exact all_icmp _ _ (fun x => x == 0 || x == 2 ^ 32 - 1)
      bool32_store_canon nc w src
  · intro nc w src
    exact all_icmp _ _ (fun x => x == 0 || x == 2 ^ 32 - 1)
      bool32_store_canon nc w src
  · intro nc w src
    exact all_icmp _ _ (fun x => x == 0 || x == 2 ^ 32 - 1)
      bool32_store_canon nc w src
  · intro nc w src
    exact all_ucmp _ _ (fun x => x == 0 || x == 2 ^ 32 - 1)
      bool32_store_canon nc w src
  · intro nc w src
    exact all_ucmp _ _ (fun x => x == 0 || x == 2 ^ 32 - 1)
      bool32_store_canon nc w src
  · intro lt16 lt32 lt64 nc w src
    exact all_flt32 (fun x => x == 0 || x == 2 ^ 32 - 1)
      bool32_store_canon lt16 lt32 lt64 nc w src
  · intro nc w src
    exact all_icmp _ _ (fun x => x == 0 || x == 1)
      bool1_store_canon nc w src
  · intro nc w src
    exact all_icmp _ _ (fun x => x == 0 || x == 1)
      bool1_store_canon nc w src
  · intro nc w src
    exact all_icmp _ _ (fun x => x == 0 || x == 1)
      bool1_store_canon nc w src
  · intro nc w src
    exact all_icmp _ _ (fun x => x == 0 || x == 1)
      bool1_store_canon nc w src
  · intro nc w src
    exact all_ucmp _ _ (fun x => x == 0 || x == 1)
      bool1_store_canon nc w src
  · intro nc w src
    exact all_ucmp _ _ (fun x => x == 0 || x == 1)
      bool1_store_canon nc w src
  · intro lt16 lt32 lt64 nc w src
    exact all_flt (fun x => x == 0 || x == 1)
      bool1_store_canon lt16 lt32 lt64 nc w src

/-! ## Claim C4 -/

theorem imodC_dvd (a b : Int) : b ∣ a - imodC a b := by
  unfold imodC
  split_ifs with h
  · exact dvd_sub_tmod a b
  · have hd := dvd_sub_tmod a b
    have he : a - (a.tmod b + b) = (a - a.tmod b) - b := by ring
    rw [he]
    exact dvd_sub hd (dvd_refl b)

theorem imodC_range_pos (a b : Int) (hb : 0 < b) :
    0 ≤ imodC a b ∧ imodC a b < b := by
  have hbd := tmod_bounds_pos a b hb
  unfold imodC
  split_ifs with h
  · rcases h with h | h
    · omega
    · have ha : 0 ≤ a := h.mpr (le_of_lt hb)
      have := Int.tmod_nonneg b ha
      omega
  · push_neg at h
    obtain ⟨hne, hiff⟩ := h
    have ha : a < 0 := by rcases hiff with ⟨h1, h2⟩ | ⟨h1, h2⟩ <;> omega
    have := tmod_nonpos a b (by omega)
    omega

theorem imodC_range_neg (a b : Int) (hb : b < 0) :
    b < imodC a b ∧ imodC a b ≤ 0 := by
  have hbd := tmod_bounds_neg a b hb
  unfold imodC
  split_ifs with h
  · rcases h with h | h
    · omega
    · have ha : ¬ (0 ≤ a) := fun h0 => absurd (h.mp h0) (by omega)
      have := tmod_nonpos a b (by omega)
      omega
  · push_neg at h
    obtain ⟨hne, hiff⟩ := h
    have ha : 0 ≤ a := by rcases hiff with ⟨h1, h2⟩ | ⟨h1, h2⟩ <;> omega
    have := Int.tmod_nonneg b ha
    omega

theorem imod_lane_spec (w : Nat) (hw : 1 ≤ w) (v0 v1 : Nat)
    (hnz : loadI w v1 ≠ 0) :
    loadI w v1 ∣ (loadI w v0 - loadI w (imod_lane w v0 v1)) ∧
    (0 < loadI w v1 → 0 ≤ loadI w (imod_lane w v0 v1) ∧
      loadI w (imod_lane w v0 v1) < loadI w v1) ∧
    (loadI w v1 < 0 → loadI w v1 < loadI w (imod_lane w v0 v1) ∧
      loadI w (imod_lane w v0 v1) ≤ 0) := by
  have hbr := loadI_range w v1
  have hp : (0 : Int) < 2 ^ (w - 1) := by positivity
  have hlane : imod_lane w v0 v1 = storeN w (imodC (loadI w v0) (loadI w v1)) := by
    simp only [imod_lane]
    rw [if_neg hnz]
  rw [hlane]
  have hmr : -((2 : Int) ^ (w - 1)) ≤ imodC (loadI w v0) (loadI w v1) ∧
      imodC (loadI w v0) (loadI w v1) < 2 ^ (w - 1) := by
    rcases lt_or_gt_of_ne hnz with hneg | hpos
    · have := imodC_range_neg (loadI w v0) (loadI w v1) hneg
      omega
    · have := imodC_range_pos (loadI w v0) (loadI w v1) hpos
      omega
  rw [loadI_storeN w hw _ hmr.1 hmr.2]
  exact ⟨imodC_dvd _ _, fun h => imodC_range_pos _ _ h, fun h => imodC_range_neg _ _ h⟩

theorem irem_lane_exact (w : Nat) (hw : 1 ≤ w) (v0 v1 : Nat)
    (hnz : loadI w v1 ≠ 0) :
    loadI w (irem_lane w v0 v1) = Int.tmod (loadI w v0) (loadI w v1) := by
  have hbr := loadI_range w v1
  have hp : (0 : Int) < 2 ^ (w - 1) := by positivity
  have hrange : -((2 : Int) ^ (w - 1)) ≤ Int.tmod (loadI w v0) (loadI w v1) ∧
      Int.tmod (loadI w v0) (loadI w v1) < 2 ^ (w - 1) := by
    rcases lt_or_gt_of_ne hnz with hneg | hpos
    · have := tmod_bounds_neg (loadI w v0) (loadI w v1) hneg
      omega
    · have := tmod_bounds_pos (loadI w v0) (loadI w v1) hpos
      omega
  simp only [irem_lane]
  rw [if_neg hnz]
  exact loadI_storeN w hw _ hrange.1 hrange.2

theorem idiv_lane_exact (w : Nat) (hw : 1 ≤ w) (v0 v1 : Nat)
    (hnz : loadI w v1 ≠ 0)
    (hlo : -((2 : Int) ^ (w - 1)) ≤ Int.tdiv (loadI w v0) (loadI w v1))
    (hhi : Int.tdiv (loadI w v0) (loadI w v1) < 2 ^ (w - 1)) :
    loadI w (idiv_lane w v0 v1) = Int.tdiv (loadI w v0) (loadI w v1) := by
  simp only [idiv_lane]
  rw [if_neg hnz]
  exact loadI_storeN w hw _ hlo hhi

theorem udiv_lane_exact (w : Nat) (v0 v1 : Nat) (hnz : loadU w v1 ≠ 0) :
    udiv_lane w v0 v1 = loadU w v0 / loadU w v1 := by
  simp only [udiv_lane]
  rw [if_neg hnz]
  apply Nat.mod_eq_of_lt
  have h1 : loadU w v0 < 2 ^ w := Nat.mod_lt _ (by positivity)
  have h2 := Nat.div_le_self (loadU w v0) (loadU w v1)
  omega

theorem umod_lane_exact (w : Nat) (v0 v1 : Nat) (hnz : loadU w v1 ≠ 0) :
    umod_lane w v0 v1 = loadU w v0 % loadU w v1 := by
  simp only [umod_lane]
  rw [if_neg hnz]
  apply Nat.mod_eq_of_lt
  have h1 : loadU w v0 < 2 ^ w := Nat.mod_lt _ (by positivity)
  have h2 := Nat.mod_le (loadU w v0) (loadU w v1)
  omega

theorem divmod_zero_lanes (w : Nat) (v0 v1 : Nat) :
    (loadI w v1 = 0 →
      idiv_lane w v0 v1 = 0 ∧ irem_lane w v0 v1 = 0 ∧ imod_lane w v0 v1 = 0) ∧
    (loadU w v1 = 0 → udiv_lane w v0 v1 = 0 ∧ umod_lane w v0 v1 = 0) := by
  constructor
  · intro h
    refine ⟨?_, ?_, ?_⟩ <;>
      simp [idiv_lane, irem_lane, imod_lane, h, storeN_zero]
  · intro h
    constructor <;> simp [udiv_lane, umod_lane, h]

theorem divmod1_zero (v0 v1 : Nat) (h : uint1_of_bit v1 = 0) :
    idiv_lane1 v0 v1 = 0 ∧ udiv_lane1 v0 v1 = 0 ∧ imod_lane1 v0 v1 = 0 ∧
    irem_lane1 v0 v1 = 0 ∧ umod_lane1 v0 v1 = 0 := by
  cases hb : loadB v1 with
  | false =>
    refine ⟨?_, ?_, ?_, ?_, ?_⟩ <;>
      simp [idiv_lane1, udiv_lane1, imod_lane1, irem_lane1, umod_lane1,
        int1_of_bit, uint1_of_bit, hb, storeBit1]
  | true => simp [uint1_of_bit, hb] at h

theorem divmod1_exact (v0 v1 : Nat) (h : loadB v1 = true) :
    udiv_lane1 v0 v1 = uint1_of_bit v0 ∧ umod_lane1 v0 v1 = 0 ∧
    int1_of_bit (irem_lane1 v0 v1) = 0 ∧ int1_of_bit (imod_lane1 v0 v1) = 0 ∧
    (int1_of_bit v0 = 0 → int1_of_bit (idiv_lane1 v0 v1) = 0) := by
  have hv1 : v1 ≠ 0 := by simpa [loadB] using h
  rcases eq_or_ne v0 0 with h0 | h0 <;>
    refine ⟨?_, ?_, ?_, ?_, ?_⟩ <;>
      simp [udiv_lane1, umod_lane1, irem_lane1, imod_lane1, idiv_lane1, imodC,
        int1_of_bit, uint1_of_bit, loadB, hv1, h0, storeBit1]

/-- Counterexample for claim C4 as stated: the divisor is nonzero but
the quotient is not the exact integer result.  At bit size 8 the lane
`idiv(-128, -1)` (raw operands `0x80`, `0xFF`) has exact quotient 128,
which is unrepresentable in `int8_t`; the store truncates it back to
`0x80`, i.e. the evaluator returns -128, not 128. -/
theorem idiv_min_div_neg_one_wraps :
    loadI 8 128 = -128 ∧ loadI 8 255 = -1 ∧
    Int.tdiv (loadI 8 128) (loadI 8 255) = 128 ∧
    evaluate_idiv 1 8 [[128], [255]] = some [(0, 128)] ∧
    loadI 8 128 ≠ Int.tdiv (loadI 8 128) (loadI 8 255) := by decide

/-- Claim C4, amended (status: corrected).  At every width, each of
`idiv`/`udiv`/`imod`/`irem`/`umod` yields 0 on a zero divisor rather
than trapping; for nonzero divisors the result decodes to the exact
integer result of the operation — the truncated quotient for `idiv`
(whenever that quotient is representable at width `w`; the single case
`min_w / -1` wraps, see the counterexample), the truncated remainder
for `irem`, the floored divisor-signed modulus for `imod` (stated by
its characterising congruence and sign-range properties), and the
euclidean quotient/remainder for `udiv`/`umod`.  The 1-bit branches are
stated separately under their 0 / -1 and 0/1 operand conventions. -/
theorem divmod_by_zero_and_exactness :
    (∀ w, w ∈ [8, 16, 32, 64] → ∀ v0 v1 : Nat,
      (loadI w v1 = 0 →
        idiv_lane w v0 v1 = 0 ∧ irem_lane w v0 v1 = 0 ∧ imod_lane w v0 v1 = 0) ∧
      (loadU w v1 = 0 → udiv_lane w v0 v1 = 0 ∧ umod_lane w v0 v1 = 0) ∧
      (loadI w v1 ≠ 0 →
        -((2 : Int) ^ (w - 1)) ≤ Int.tdiv (loadI w v0) (loadI w v1) →
        Int.tdiv (loadI w v0) (loadI w v1) < 2 ^ (w - 1) →
        loadI w (idiv_lane w v0 v1) = Int.tdiv (loadI w v0) (loadI w v1)) ∧
      (loadI w v1 ≠ 0 →
        loadI w (irem_lane w v0 v1) = Int.tmod (loadI w v0) (loadI w v1)) ∧
      (loadI w v1 ≠ 0 →
        loadI w v1 ∣ (loadI w v0 - loadI w (imod_lane w v0 v1)) ∧
        (0 < loadI w v1 → 0 ≤ loadI w (imod_lane w v0 v1) ∧
          loadI w (imod_lane w v0 v1) < loadI w v1) ∧
        (loadI w v1 < 0 → loadI w v1 < loadI w (imod_lane w v0 v1) ∧
          loadI w (imod_lane w v0 v1) ≤ 0)) ∧
      (loadU w v1 ≠ 0 →
        udiv_lane w v0 v1 = loadU w v0 / loadU w v1 ∧
        umod_lane w v0 v1 = loadU w v0 % loadU w v1)) ∧
    (∀ v0 v1 : Nat, uint1_of_bit v1 = 0 →
      idiv_lane1 v0 v1 = 0 ∧ udiv_lane1 v0 v1 = 0 ∧ imod_lane1 v0 v1 = 0 ∧
      irem_lane1 v0 v1 = 0 ∧ umod_lane1 v0 v1 = 0) ∧
    (∀ v0 v1 : Nat, loadB v1 = true →
      udiv_lane1 v0 v1 = uint1_of_bit v0 ∧ umod_lane1 v0 v1 = 0 ∧
      int1_of_bit (irem_lane1 v0 v1) = 0 ∧ int1_of_bit (imod_lane1 v0 v1) = 0 ∧
      (int1_of_bit v0 = 0 → int1_of_bit (idiv_lane1 v0 v1) = 0)) := by
  refine ⟨?_, divmod1_zero, divmod1_exact⟩
  intro w hw v0 v1
  have hw1 : 1 ≤ w := by fin_cases hw <;> omega
  exact ⟨fun h => (divmod_zero_lanes w v0 v1).1 h,
         fun h => (divmod_zero_lanes w v0 v1).2 h,
         fun h hlo hhi => idiv_lane_exact w hw1 v0 v1 h hlo hhi,
         fun h => irem_lane_exact w hw1 v0 v1 h,
         fun h => imod_lane_spec w hw1 v0 v1 h,
         fun h => ⟨udiv_lane_exact w v0 v1 h, umod_lane_exact w v0 v1 h⟩⟩

/-- Witness for the amended C4: division by zero at width 8 yields 0,
`idiv 7 / 2` is exact, `udiv 7 / 3` is exact, and the 1-bit zero and
nonzero divisor cases at concrete lanes. -/
theorem divmod_by_zero_and_exactness_witness :
    ((8 : Nat) ∈ [8, 16, 32, 64] ∧ loadI 8 0 = 0 ∧
      idiv_lane 8 7 0 = 0 ∧ irem_lane 8 7 0 = 0 ∧ imod_lane 8 7 0 = 0) ∧
    (loadI 8 2 ≠ 0 ∧ loadI 8 (idiv_lane 8 7 2) = Int.tdiv (loadI 8 7) (loadI 8 2)) ∧
    (loadU 8 3 ≠ 0 ∧ udiv_lane 8 7 3 = loadU 8 7 / loadU 8 3) ∧
    (uint1_of_bit 0 = 0 ∧ udiv_lane1 1 0 = 0) ∧
    (loadB 1 = true ∧ umod_lane1 1 1 = 0) := by
  refine ⟨⟨by decide, by decide, ?_, ?_, ?_⟩, ⟨by decide, ?_⟩, ⟨by decide, ?_⟩,
    ⟨by decide, ?_⟩, ⟨by decide, ?_⟩⟩
  · exact ((divmod_by_zero_and_exactness.1 8 (by decide) 7 0).1 (by decide)).1
  · exact ((divmod_by_zero_and_exactness.1 8 (by decide) 7 0).1 (by decide)).2.1
  · exact ((divmod_by_zero_and_exactness.1 8 (by decide) 7 0).1 (by decide)).2.2
  · exact (divmod_by_zero_and_exactness.1 8 (by decide) 7 2).2.2.1
      (by decide) (by decide) (by decide)
  · exact ((divmod_by_zero_and_exactness.1 8 (by decide) 7 3).2.2.2.2.2
      (by decide)).1
  · exact (divmod_by_zero_and_exactness.2.1 1 0 (by decide)).2.1
  · exact (divmod_by_zero_and_exactness.2.2 1 1 (by decide)).2.1
